import Mathlib

/-!
Verification of the pitemp repository core: the shared state store
(src/internal/state/state.go), the periodic-task primitive
(sync.RepeatUntilCancelled), the sensor poller (src/main.go, dhtUpdater),
the remote fetcher (src/internal/app/client/client.go, fetchState), the
display updaters (the hd44780 LCD updater and the pioled display), and the
shutdown wiring of the main variants.
-/

namespace Pitemp

/-- The record state.State of src/internal/state/state.go (the spec calls it
a Reading).  Temperature and Humidity are float32 in Go; the program only
ever copies them (no arithmetic), so a rational carrier is faithful.  IP is a
string.  LastSensorUpdate is a time.Time, modelled as nanoseconds since the
epoch; 0 is the zero time (time.Time.IsZero). -/
@[ext]
structure State where
  Temperature : ℚ
  Humidity : ℚ
  IP : String
  LastSensorUpdate : ℕ
deriving DecidableEq, Repr

/-- The zero value of state.State: the store's content before any Set. -/
def State.zero : State := ⟨0, 0, "", 0⟩

namespace state

/-- state.Get (src/internal/state/state.go lines 15-20): under the read lock,
returns a copy of the stored state.State. -/
def Get (cur : State) : State := cur

/-- state.Set (src/internal/state/state.go lines 23-27): under the write
lock, replaces the stored value wholesale (state.State = *s). -/
def Set (_cur : State) (s : State) : State := s

end state

/-! ## The periodic-task primitive

sync.RepeatUntilCancelled (src/unnamed/part_001 lines 9-22; the identical
private repeatUntilCancelled is src/unnamed/part_000 lines 30-43):

    for {
      f()
      t := time.NewTimer(interval)
      select {
      case <-ctx.Done(): return
      case <-t.C:
      }
    }

The loop body is modelled as an event trace.  A schedule lists the outcome
of each successive select: true means the cancellation branch (ctx.Done) is
taken, false means the timer fired and the loop repeats.  When the schedule
runs out we simply stop observing the (still running) loop, mid-select. -/

/-- Events of one RepeatUntilCancelled execution. -/
inductive Ev where
  | invoke
  | timerStart
  | intervalElapsed
  | cancelReturn
deriving DecidableEq, Repr

/-- The trace of RepeatUntilCancelled under a given schedule of select
outcomes.  f() runs first; only then is the interval timer created, so the
full interval is waited out after the action returns. -/
def runRepeat : List Bool → List Ev
  | [] => [Ev.invoke, Ev.timerStart]
  | b :: rest =>
      Ev.invoke :: Ev.timerStart ::
        (if b then [Ev.cancelReturn] else Ev.intervalElapsed :: runRepeat rest)

/-- Number of fully elapsed intervals before the first observed
cancellation (or before observation stops). -/
def ticksBeforeCancel : List Bool → ℕ
  | [] => 0
  | b :: rest => if b then 0 else ticksBeforeCancel rest + 1

/-- True when no event at all follows a cancelReturn event in the trace:
once the cancellation branch is taken the function has returned. -/
def noEventAfterCancel : List Ev → Bool
  | [] => true
  | Ev.cancelReturn :: rest => rest.isEmpty
  | _ :: rest => noEventAfterCancel rest

/-- True when every invoke event that has a successor is immediately
followed by timerStart: the wait on the full interval begins directly after
the action returns, so invocations are never back to back and a slow action
delays rather than overlaps the next one. -/
def invokeFollowedByTimer : List Ev → Bool
  | Ev.invoke :: b :: rest => (b == Ev.timerStart) && invokeFollowedByTimer (b :: rest)
  | _ :: rest => invokeFollowedByTimer rest
  | [] => true

/-! ## The sensor poller (standalone/server deployments)

dhtUpdater of src/main.go lines 123-150: each tick calls the DHT11 driver;
on error it only logs; on success it Sets a fresh state.State (IP is left at
its zero value "") and updates the three Prometheus gauges.  The timer /
cancellation part of the loop is the RepeatUntilCancelled shape above; here
we model the per-tick state transition. -/

/-- The three Prometheus gauges updated by dhtUpdater. -/
structure Gauges where
  tempGauge : ℚ
  humidityGauge : ℚ
  lastUpdateGauge : ℕ
deriving DecidableEq, Repr

/-- Zero-initialised gauges. -/
def Gauges.zero : Gauges := ⟨0, 0, 0⟩

/-- One tick of dhtUpdater (src/main.go lines 124-139).  sensor is the
result of dht.ReadDHTxxWithRetry: an error, or a temperature/humidity pair;
now is the value of time.Now() at the tick.  On error the store and the
gauges are untouched (the code only calls log.Printf).  On success the
store receives a literal state.State with Temperature, Humidity and
LastSensorUpdate set and IP left at its zero value. -/
def dhtUpdaterTick (prev : State) (g : Gauges)
    (sensor : Except String (ℚ × ℚ)) (now : ℕ) : State × Gauges :=
  match sensor with
  | Except.error _ => (prev, g)
  | Except.ok (t, h) =>
      (⟨t, h, "", now⟩, ⟨t, h, now⟩)

/-- The store/gauge evolution of the standalone program: the only writes to
the store in src/main.go are dhtUpdater ticks (the HTTP handlers only call
state.Get). -/
def foldTicks : List (Except String (ℚ × ℚ) × ℕ) → State × Gauges → State × Gauges
  | [], sg => sg
  | e :: rest, sg => foldTicks rest (dhtUpdaterTick sg.1 sg.2 e.1 e.2)

/-- Run the standalone program's write path from the initial zero store and
zero gauges through a list of poll ticks. -/
def runStandalone (evts : List (Except String (ℚ × ℚ) × ℕ)) : State × Gauges :=
  foldTicks evts (State.zero, Gauges.zero)

/-- A JSON value as produced by the /api handler; time.Time marshals to an
RFC3339 string whose exact rendering is irrelevant to the claims, so it is
kept as its own constructor. -/
inductive JValue where
  | num (q : ℚ)
  | str (s : String)
  | time (t : ℕ)
deriving DecidableEq, Repr

/-- serveJSON (src/unnamed/part_004 lines 68-74): encodes state.Get() with
encoding/json; the four exported fields of state.State appear in
declaration order. -/
def serveJSON (s : State) : List (String × JValue) :=
  [("Temperature", JValue.num s.Temperature),
   ("Humidity", JValue.num s.Humidity),
   ("IP", JValue.str s.IP),
   ("LastSensorUpdate", JValue.time s.LastSensorUpdate)]

/-! ## The remote fetcher (client/peripheral mode)

fetchState of src/internal/app/client/client.go lines 34-47 (identical in
src/unnamed/part_000 lines 58-71):

    resp, err := http.Get(server)
    if err != nil { log.Printf(...) }          // no return
    var s state.State
    if err := json.NewDecoder(resp.Body).Decode(&s); err != nil {
      log.Printf(...)                          // no return
    }
    state.Set(&s)

Note that neither error branch returns: on a network error the code goes on
to dereference the nil response (a panic), and on a decode error it still
calls state.Set with whatever is left in s (the zero value when nothing was
decoded). -/

/-- Outcome of one fetch attempt, as seen by fetchState: the HTTP GET
failed (resp is nil), the body failed to decode (s holds whatever the
decoder left, the zero value when nothing was decoded), or the body decoded
to a state.State. -/
inductive FetchOutcome where
  | netError
  | decodeError (leftover : State)
  | ok (s : State)
deriving DecidableEq, Repr

/-- One fetchState call: given the store's previous content and the fetch
outcome, the resulting store content, or none when the Go code panics
(nil response dereference). -/
def fetchState (_prev : State) (o : FetchOutcome) : Option State :=
  match o with
  | FetchOutcome.netError => none
  | FetchOutcome.decodeError leftover => some leftover
  | FetchOutcome.ok s => some s

/-- A previously good Reading, used to exhibit the fetchState failure
behaviour at a concrete input. -/
def goodReading : State := ⟨21, 40, "", 100⟩

/-! ## Display updaters and rendering failures

lcd.Updater (the hd44780 updater, package lcd) writes up to four lines per
tick with lcd.ShowMessage; every error branch is log.Printf followed by
fall-through.  pioled.display (src/internal/pioled/pioled.go lines 75-85)
draws one frame; its error branch is log.Fatal(err), which terminates the
process. -/

/-- How a display-write error branch is handled in the source: log.Printf
and fall through, or log.Fatal. -/
inductive LineHandler where
  | logAndContinue
  | logFatal
deriving DecidableEq, Repr

/-- Outcome of a display function body: it returned (its enclosing updater
loop continues to the next tick), carrying the number of failed writes that
were logged, or log.Fatal was reached and the process exits. -/
inductive DisplayOutcome where
  | returned (failedWrites : ℕ)
  | processExit
deriving DecidableEq, Repr

/-- Run a sequence of display writes; each is a handler (from the source's
error branch) together with whether this write errored. -/
def runDisplayWrites : List (LineHandler × Bool) → DisplayOutcome
  | [] => DisplayOutcome.returned 0
  | (h, e) :: rest =>
      if e then
        match h with
        | LineHandler.logFatal => DisplayOutcome.processExit
        | LineHandler.logAndContinue =>
            match runDisplayWrites rest with
            | DisplayOutcome.returned k => DisplayOutcome.returned (k + 1)
            | DisplayOutcome.processExit => DisplayOutcome.processExit
      else runDisplayWrites rest

/-- The writes of one lcd.Updater tick body: line 1 (freshness/message),
line 2 (IP address, only when IPIface is nonempty), line 3 (temperature),
line 4 (clock).  All four error branches in the source are log.Printf. -/
def lcdUpdaterTickWrites (ipIfaceSet : Bool) (e1 e2 e3 e4 : Bool) :
    List (LineHandler × Bool) :=
  (LineHandler.logAndContinue, e1) ::
    ((if ipIfaceSet then [(LineHandler.logAndContinue, e2)] else []) ++
      [(LineHandler.logAndContinue, e3), (LineHandler.logAndContinue, e4)])

/-- One lcd.Updater tick body (the four ShowMessage calls). -/
def lcdUpdaterTick (ipIfaceSet : Bool) (e1 e2 e3 e4 : Bool) : DisplayOutcome :=
  runDisplayWrites (lcdUpdaterTickWrites ipIfaceSet e1 e2 e3 e4)

/-- pioled.display (src/internal/pioled/pioled.go lines 75-85): when dev is
nil it logs a warning and returns; otherwise it renders and calls dev.Draw,
whose error branch is log.Fatal(err). -/
def display (devNil : Bool) (drawErr : Bool) : DisplayOutcome :=
  if devNil then DisplayOutcome.returned 0
  else runDisplayWrites [(LineHandler.logFatal, drawErr)]

/-- Whether a display outcome terminated the process. -/
def stopsProcess : DisplayOutcome → Bool
  | DisplayOutcome.processExit => true
  | DisplayOutcome.returned _ => false

/-! ## Shutdown wiring of the main variants

src/main.go lines 96-121: main spawns dhtUpdater and (when enabled)
lcd.Updater / pioled.Updater as goroutines, blocks on the interrupt channel,
calls cancel(), and returns - there is no join of the spawned goroutines.
The main of src/unnamed/part_004 lines 240-265 instead wraps every spawn in
a sync.WaitGroup and calls wg.Wait() after cancel(). -/

/-- A step of a main function's lifecycle, in source order. -/
inductive MainStep where
  | spawnActivity (name : String) (hasCleanup : Bool)
  | awaitInterrupt
  | cancelContext
  | joinActivities
  | exitProcess
deriving DecidableEq, Repr

/-- The lifecycle of src/main.go lines 109-121 with both displays enabled:
go dhtUpdater(ctx); go lcd.Updater(ctx); go pioled.Updater(ctx);
select { case <-interrupted: cancel() }; return.  dhtUpdater's cancellation
branch is a bare return (no cleanup); both display updaters run a cleanup
(backlight off / display clear) on their cancellation branch. -/
def mainTopLevelSteps : List MainStep :=
  [MainStep.spawnActivity "dhtUpdater" false,
   MainStep.spawnActivity "lcd.Updater" true,
   MainStep.spawnActivity "pioled.Updater" true,
   MainStep.awaitInterrupt,
   MainStep.cancelContext,
   MainStep.exitProcess]

/-- The lifecycle of the WaitGroup-based main (src/unnamed/part_004 lines
240-265) with both displays enabled: each activity is spawned through
waitGroupGo, and after cancel() the function blocks in wg.Wait() before
returning. -/
def mainWaitGroupSteps : List MainStep :=
  [MainStep.spawnActivity "dhtUpdater" false,
   MainStep.spawnActivity "lcd.Updater" true,
   MainStep.spawnActivity "pioled.Updater" true,
   MainStep.awaitInterrupt,
   MainStep.cancelContext,
   MainStep.joinActivities,
   MainStep.exitProcess]

/-- Whether a main joins its spawned activities before the process exits. -/
def waitsBeforeExit (steps : List MainStep) : Bool :=
  decide (MainStep.joinActivities ∈
    steps.takeWhile (fun s => s ≠ MainStep.exitProcess))

/-- Events of one display updater goroutine (the loops of lcd.Updater and
pioled.Updater share this shape): render, wait on the interval timer or the
cancellation, and on the cancellation branch run cleanup() and return. -/
inductive UEv where
  | renderTick
  | intervalWait
  | cleanupRun
  | returned
deriving DecidableEq, Repr

/-- The trace of a display updater under a schedule of select outcomes
(true: ctx.Done fired; false: the interval timer fired).  When the schedule
runs out we stop observing the still-running loop. -/
def updaterRun : List Bool → List UEv
  | [] => [UEv.renderTick, UEv.intervalWait]
  | b :: rest =>
      UEv.renderTick :: UEv.intervalWait ::
        (if b then [UEv.cleanupRun, UEv.returned] else updaterRun rest)

/-- Number of cleanup executions in an updater trace. -/
def cleanupCount (t : List UEv) : ℕ := t.countP (fun e => e == UEv.cleanupRun)

/-! ## Fine-grained model of the shared store under concurrency

state.Get and state.Set (src/internal/state/state.go) copy the four fields
of state.State inside critical sections of a sync.RWMutex.  To settle the
atomic-visibility claim we model the field copies individually: a Set
thread acquires the write lock, writes Temperature, Humidity, IP and
LastSensorUpdate one at a time, and releases; a Get thread acquires a read
lock, reads the four fields one at a time into its local copy, and
releases.  Any number of such threads interleave; only the lock transitions
constrain the scheduler, exactly as the RWMutex does. -/

/-- Program counter of one state.Set call: w0 before Lock(), w1 holding the
lock, w2-w5 after writing Temperature / Humidity / IP / LastSensorUpdate,
w6 after Unlock() (returned). -/
inductive WPhase where
  | w0 | w1 | w2 | w3 | w4 | w5 | w6
deriving DecidableEq, Repr

/-- Program counter of one state.Get call: r0 before RLock(), r1 holding a
read lock, r2-r5 after reading Temperature / Humidity / IP /
LastSensorUpdate into the local copy, r6 after RUnlock() (returned). -/
inductive RPhase where
  | r0 | r1 | r2 | r3 | r4 | r5 | r6
deriving DecidableEq, Repr

/-- A Set call is inside its critical section. -/
def WPhase.active : WPhase → Bool
  | WPhase.w0 => false
  | WPhase.w6 => false
  | _ => true

/-- A Get call is inside its critical section. -/
def RPhase.active : RPhase → Bool
  | RPhase.r0 => false
  | RPhase.r6 => false
  | _ => true

/-- The sync.RWMutex: held by the one writer, or held by n readers
(readersHeld 0 is the free mutex). -/
inductive Lock where
  | writerHeld
  | readersHeld (n : ℕ)
deriving DecidableEq, Repr

/-- A configuration of the store with its clients: the stored state.State,
the mutex, every Set call (its argument and program counter) and every Get
call (its local copy and program counter). -/
structure Config where
  store : State
  lock : Lock
  writers : List (State × WPhase)
  readers : List (State × RPhase)
deriving DecidableEq, Repr

/-- One interleaving step: some thread executes its next instruction.  Lock
and RLock block according to the RWMutex (Lock needs the mutex free, RLock
needs no writer); field writes and reads are single memory accesses. -/
inductive Step : Config → Config → Prop where
  | wLock (st : State) (r : State) (wa wb : List (State × WPhase))
      (rs : List (State × RPhase)) :
      Step ⟨st, Lock.readersHeld 0, wa ++ (r, WPhase.w0) :: wb, rs⟩
        ⟨st, Lock.writerHeld, wa ++ (r, WPhase.w1) :: wb, rs⟩
  | wTemp (st : State) (lk : Lock) (r : State) (wa wb : List (State × WPhase))
      (rs : List (State × RPhase)) :
      Step ⟨st, lk, wa ++ (r, WPhase.w1) :: wb, rs⟩
        ⟨{st with Temperature := r.Temperature}, lk,
          wa ++ (r, WPhase.w2) :: wb, rs⟩
  | wHum (st : State) (lk : Lock) (r : State) (wa wb : List (State × WPhase))
      (rs : List (State × RPhase)) :
      Step ⟨st, lk, wa ++ (r, WPhase.w2) :: wb, rs⟩
        ⟨{st with Humidity := r.Humidity}, lk,
          wa ++ (r, WPhase.w3) :: wb, rs⟩
  | wIp (st : State) (lk : Lock) (r : State) (wa wb : List (State × WPhase))
      (rs : List (State × RPhase)) :
      Step ⟨st, lk, wa ++ (r, WPhase.w3) :: wb, rs⟩
        ⟨{st with IP := r.IP}, lk, wa ++ (r, WPhase.w4) :: wb, rs⟩
  | wTime (st : State) (lk : Lock) (r : State) (wa wb : List (State × WPhase))
      (rs : List (State × RPhase)) :
      Step ⟨st, lk, wa ++ (r, WPhase.w4) :: wb, rs⟩
        ⟨{st with LastSensorUpdate := r.LastSensorUpdate}, lk,
          wa ++ (r, WPhase.w5) :: wb, rs⟩
  | wUnlock (st : State) (lk : Lock) (r : State) (wa wb : List (State × WPhase))
      (rs : List (State × RPhase)) :
      Step ⟨st, lk, wa ++ (r, WPhase.w5) :: wb, rs⟩
        ⟨st, Lock.readersHeld 0, wa ++ (r, WPhase.w6) :: wb, rs⟩
  | rLock (st : State) (n : ℕ) (acc : State) (ws : List (State × WPhase))
      (ra rb : List (State × RPhase)) :
      Step ⟨st, Lock.readersHeld n, ws, ra ++ (acc, RPhase.r0) :: rb⟩
        ⟨st, Lock.readersHeld (n + 1), ws, ra ++ (acc, RPhase.r1) :: rb⟩
  | rTemp (st : State) (lk : Lock) (acc : State) (ws : List (State × WPhase))
      (ra rb : List (State × RPhase)) :
      Step ⟨st, lk, ws, ra ++ (acc, RPhase.r1) :: rb⟩
        ⟨st, lk, ws,
          ra ++ ({acc with Temperature := st.Temperature}, RPhase.r2) :: rb⟩
  | rHum (st : State) (lk : Lock) (acc : State) (ws : List (State × WPhase))
      (ra rb : List (State × RPhase)) :
      Step ⟨st, lk, ws, ra ++ (acc, RPhase.r2) :: rb⟩
        ⟨st, lk, ws,
          ra ++ ({acc with Humidity := st.Humidity}, RPhase.r3) :: rb⟩
  | rIp (st : State) (lk : Lock) (acc : State) (ws : List (State × WPhase))
      (ra rb : List (State × RPhase)) :
      Step ⟨st, lk, ws, ra ++ (acc, RPhase.r3) :: rb⟩
        ⟨st, lk, ws, ra ++ ({acc with IP := st.IP}, RPhase.r4) :: rb⟩
  | rTime (st : State) (lk : Lock) (acc : State) (ws : List (State × WPhase))
      (ra rb : List (State × RPhase)) :
      Step ⟨st, lk, ws, ra ++ (acc, RPhase.r4) :: rb⟩
        ⟨st, lk, ws,
          ra ++ ({acc with LastSensorUpdate := st.LastSensorUpdate},
            RPhase.r5) :: rb⟩
  | rUnlock (st : State) (n : ℕ) (acc : State) (ws : List (State × WPhase))
      (ra rb : List (State × RPhase)) :
      Step ⟨st, Lock.readersHeld (n + 1), ws, ra ++ (acc, RPhase.r5) :: rb⟩
        ⟨st, Lock.readersHeld n, ws, ra ++ (acc, RPhase.r6) :: rb⟩

/-- Reachability by interleaving steps. -/
def Reachable (a b : Config) : Prop := Relation.ReflTransGen Step a b

/-- The initial configuration: zero-valued store, free mutex, a pending Set
call for each argument in args, and a pending Get call for each initial
local copy in accs (the local copy is overwritten in full before a Get
returns, so its initial value is irrelevant). -/
def initConfig (args accs : List State) : Config :=
  ⟨State.zero, Lock.readersHeld 0,
    args.map (fun r => (r, WPhase.w0)),
    accs.map (fun a => (a, RPhase.r0))⟩

/-- Number of Set calls currently inside their critical section. -/
def wActiveCount (c : Config) : ℕ :=
  c.writers.countP (fun p => p.2.active)

/-- Number of Get calls currently inside their critical section. -/
def rActiveCount (c : Config) : ℕ :=
  c.readers.countP (fun p => p.2.active)

/-- A value is the zero-value Reading or the complete argument of one
single Set call that has finished writing: the atomic-visibility property
the claim asserts of every Get result. -/
def fromOneSet (ws : List (State × WPhase)) (v : State) : Prop :=
  v = State.zero ∨ ∃ p, p ∈ ws ∧ p.2 = WPhase.w6 ∧ v = p.1

/-- The mutex discipline: a held write lock corresponds to exactly one
in-section Set and no in-section Get; a read-held (or free) mutex
corresponds to no in-section Set and exactly n in-section Gets. -/
def lockOK (c : Config) : Prop :=
  match c.lock with
  | Lock.writerHeld => wActiveCount c = 1 ∧ rActiveCount c = 0
  | Lock.readersHeld n => wActiveCount c = 0 ∧ rActiveCount c = n

/-- What a mid-write Set call has already deposited in the store. -/
def writerStorePartial (st : State) (p : State × WPhase) : Prop :=
  (p.2 = WPhase.w2 → st.Temperature = p.1.Temperature) ∧
  (p.2 = WPhase.w3 → st.Temperature = p.1.Temperature ∧
    st.Humidity = p.1.Humidity) ∧
  (p.2 = WPhase.w4 → st.Temperature = p.1.Temperature ∧
    st.Humidity = p.1.Humidity ∧ st.IP = p.1.IP) ∧
  (p.2 = WPhase.w5 → st = p.1)

/-- What a mid-read Get call has already copied out of the store. -/
def readerAccPartial (st : State) (p : State × RPhase) : Prop :=
  (p.2 = RPhase.r2 → p.1.Temperature = st.Temperature) ∧
  (p.2 = RPhase.r3 → p.1.Temperature = st.Temperature ∧
    p.1.Humidity = st.Humidity) ∧
  (p.2 = RPhase.r4 → p.1.Temperature = st.Temperature ∧
    p.1.Humidity = st.Humidity ∧ p.1.IP = st.IP) ∧
  (p.2 = RPhase.r5 → p.1 = st)

/-- The inductive invariant: the mutex discipline holds, mid-write and
mid-read progress is as recorded, the store holds a committed value
whenever no Set is mid-write, and every returned Get holds a committed
value. -/
structure Inv (c : Config) : Prop where
  lock_ok : lockOK c
  writer_partial : ∀ p, p ∈ c.writers → writerStorePartial c.store p
  store_committed : wActiveCount c = 0 → fromOneSet c.writers c.store
  reader_partial : ∀ p, p ∈ c.readers → readerAccPartial c.store p
  readers_done : ∀ p, p ∈ c.readers → p.2 = RPhase.r6 → fromOneSet c.writers p.1

/-- A concrete Set argument for exercising the model. -/
def rStar : State := ⟨1, 2, "x", 3⟩

/-- The configuration after one full Set(rStar) followed by one full Get,
from initConfig [rStar] [State.zero]. -/
def cFinal : Config :=
  ⟨rStar, Lock.readersHeld 0, [(rStar, WPhase.w6)], [(rStar, RPhase.r6)]⟩

/-! # Theorems -/

/-- Claim C7: for every Reading r, Set(r) followed by Get() with no
intervening Set returns exactly r; all four fields of the returned value
equal those of r. -/
theorem set_then_get_returns_exactly (cur r : State) :
    state.Get (state.Set cur r) = r ∧
    (state.Get (state.Set cur r)).Temperature = r.Temperature ∧
    (state.Get (state.Set cur r)).Humidity = r.Humidity ∧
    (state.Get (state.Set cur r)).IP = r.IP ∧
    (state.Get (state.Set cur r)).LastSensorUpdate = r.LastSensorUpdate :=
  ⟨rfl, rfl, rfl, rfl, rfl⟩

/-- Claim C4: a failed sensor poll tick writes neither the store nor the
gauges; a Get after the failed tick returns exactly the Reading present
before it, whatever that Reading was. -/
theorem dhtUpdater_failed_tick_preserves_store
    (prev : State) (g : Gauges) (e : String) (now : ℕ) :
    dhtUpdaterTick prev g (Except.error e) now = (prev, g) ∧
    state.Get (dhtUpdaterTick prev g (Except.error e) now).1 = state.Get prev :=
  ⟨rfl, rfl⟩

/-- Claim C9: when the context is already cancelled at entry, the action is
still invoked exactly once before RepeatUntilCancelled returns: the first
select (taking the cancellation branch) happens only after the first
invocation completed.  A schedule starting with true is exactly an execution
whose first select observes the cancellation. -/
theorem repeatUntilCancelled_precancelled_invokes_once (rest : List Bool) :
    runRepeat (true :: rest) = [Ev.invoke, Ev.timerStart, Ev.cancelReturn] ∧
    (runRepeat (true :: rest)).count Ev.invoke = 1 := by
  refine ⟨by simp [runRepeat], ?_⟩
  simp [runRepeat]

/-- Claim C2: RepeatUntilCancelled invokes the action once immediately,
starts the full-interval wait only after the action returns (so a long
action delays rather than skips the next tick, and invocations never
overlap), performs exactly one invocation per elapsed interval (no
catch-up burst), and returns, with no further invocation, once the
cancellation branch is taken. -/
theorem repeatUntilCancelled_schedule (sched : List Bool) :
    (runRepeat sched).head? = some Ev.invoke ∧
    (runRepeat sched).count Ev.invoke = ticksBeforeCancel sched + 1 ∧
    (runRepeat sched).count Ev.timerStart = (runRepeat sched).count Ev.invoke ∧
    (runRepeat sched).count Ev.intervalElapsed + 1
      = (runRepeat sched).count Ev.invoke ∧
    invokeFollowedByTimer (runRepeat sched) = true ∧
    (runRepeat sched).count Ev.cancelReturn
      = (if sched.any (fun b => b) then 1 else 0) ∧
    noEventAfterCancel (runRepeat sched) = true := by
  induction sched with
  | nil => decide
  | cons b rest ih =>
      cases b with
      | true =>
          refine ⟨?_, ?_, ?_, ?_, ?_, ?_, ?_⟩ <;>
            simp [runRepeat, ticksBeforeCancel, List.count_cons,
              noEventAfterCancel, invokeFollowedByTimer]
      | false =>
          obtain ⟨ih1, ih2, ih3, ih4, ih5, ih6, ih7⟩ := ih
          refine ⟨?_, ?_, ?_, ?_, ?_, ?_, ?_⟩
          · simp [runRepeat]
          · simp [runRepeat, ticksBeforeCancel, List.count_cons, ih2]
          · simp [runRepeat, List.count_cons, ih3]
          · simp [runRepeat, List.count_cons] at ih4 ⊢
            omega
          · simpa [runRepeat, invokeFollowedByTimer] using ih5
          · simp [runRepeat, List.count_cons, ih6]
          · simpa [runRepeat, noEventAfterCancel] using ih7

/-- Claim C8: when a RemoteFetcher tick fetches and decodes successfully,
the local store receives exactly the decoded state.State: all fields,
including the peer's LastSensorUpdate, are propagated verbatim; no local
timestamp is recomputed anywhere in fetchState. -/
theorem fetchState_success_sets_verbatim (prev s : State) :
    fetchState prev (FetchOutcome.ok s) = some s ∧
    ∃ r, fetchState prev (FetchOutcome.ok s) = some r ∧
      r.Temperature = s.Temperature ∧ r.Humidity = s.Humidity ∧
      r.IP = s.IP ∧ r.LastSensorUpdate = s.LastSensorUpdate :=
  ⟨rfl, s, rfl, rfl, rfl, rfl, rfl⟩

/-- Claim C3 (code bug): fetchState does not skip a failed tick.  Evaluated
at a concrete previously good Reading: a tick whose body fails to decode
overwrites the store with the decoder's leftover zero value instead of
leaving the store untouched, and a tick whose HTTP GET fails dereferences
the nil response (modelled as none: the process panics).  The previous
Reading (temperature 21) is lost either way. -/
theorem fetchState_failure_overwrites_store :
    fetchState goodReading (FetchOutcome.decodeError State.zero) = some State.zero ∧
    goodReading.Temperature = 21 ∧ State.zero.Temperature = 0 ∧
    fetchState goodReading FetchOutcome.netError = none := by
  refine ⟨rfl, ?_, ?_, rfl⟩ <;> decide

/-- Claim C6 counterexample: in pioled.display (src/internal/pioled/
pioled.go lines 75-85) a failed frame write does terminate the process: the
error branch of dev.Draw is log.Fatal(err). -/
theorem pioled_draw_error_exits_process :
    stopsProcess (display false true) = true := rfl

/-- Claim C6 as amended: a failed line write in the LCD updater is logged
and its loop proceeds (no line error can terminate the process or the
loop), and a pioled frame draw that does not error also returns; but a
failed pioled frame draw reaches log.Fatal and terminates the process. -/
theorem display_error_containment :
    (∀ ip e1 e2 e3 e4 : Bool,
        stopsProcess (lcdUpdaterTick ip e1 e2 e3 e4) = false) ∧
    (∀ d : Bool, stopsProcess (display d false) = false) ∧
    stopsProcess (display false true) = true := by
  decide

/-- Claim C5 counterexample: the main of src/main.go (lines 96-121) does
not wait for its spawned activities: after cancel() it returns at once,
with no join step before the process exits, so the display updaters'
cleanups race with process exit. -/
theorem main_toplevel_exits_without_join :
    waitsBeforeExit mainTopLevelSteps = false := rfl

/-- Claim C5 as amended: in the WaitGroup-based main (src/unnamed/part_004
lines 240-265) the process joins every spawned activity after cancellation
and before exiting, and a display updater runs its cleanup exactly once on
every schedule in which the cancellation branch is observed (and not at all
before that); the top-level src/main.go variant instead returns immediately
after cancel() without joining. -/
theorem waitgroup_main_joins_and_cleanup_once :
    waitsBeforeExit mainWaitGroupSteps = true ∧
    (∀ sched : List Bool,
        cleanupCount (updaterRun sched)
          = (if sched.any (fun b => b) then 1 else 0)) ∧
    waitsBeforeExit mainTopLevelSteps = false := by
  refine ⟨rfl, ?_, rfl⟩
  intro sched
  induction sched with
  | nil => decide
  | cons b rest ih =>
      cases b with
      | true => simp [updaterRun, cleanupCount]
      | false => simpa [updaterRun, cleanupCount, List.countP_cons] using ih

/-- Claim C10: in the standalone program every store value reachable through
poll ticks (the only writes) has an empty IP field, since dhtUpdater
constructs its state.State literal without the IP field; hence the /api
handler always serialises an empty IP string. -/
theorem standalone_ip_always_empty (evts : List (Except String (ℚ × ℚ) × ℕ)) :
    (runStandalone evts).1.IP = "" ∧
    ("IP", JValue.str "") ∈ serveJSON (state.Get (runStandalone evts).1) := by
  have key : ∀ (l : List (Except String (ℚ × ℚ) × ℕ)) (s : State) (g : Gauges),
      s.IP = "" → (foldTicks l (s, g)).1.IP = "" := by
    intro l
    induction l with
    | nil => intro s g h; exact h
    | cons e rest ih =>
        intro s g h
        rcases e with ⟨sensor, now⟩
        cases sensor with
        | error msg => exact ih s g h
        | ok th => exact ih _ _ rfl
  have h1 : (runStandalone evts).1.IP = "" := key evts State.zero Gauges.zero rfl
  refine ⟨h1, ?_⟩
  simp [serveJSON, state.Get, h1]

/-! ## Atomic visibility of the RWMutex-protected store (claim C1) -/

theorem countP_split {α : Type} (p : α → Bool) (l₁ l₂ : List α) (a : α) :
    (l₁ ++ a :: l₂).countP p
      = l₁.countP p + l₂.countP p + (if p a then 1 else 0) := by
  cases h : p a
  · simp [List.countP_append, List.countP_cons, h]
  · simp [List.countP_append, List.countP_cons, h]
    omega

theorem mem_split {α : Type} {x a : α} {l₁ l₂ : List α}
    (h : x ∈ l₁ ++ a :: l₂) : x ∈ l₁ ∨ x = a ∨ x ∈ l₂ := by
  rcases List.mem_append.mp h with h1 | h2
  · exact Or.inl h1
  · rcases List.mem_cons.mp h2 with h3 | h4
    · exact Or.inr (Or.inl h3)
    · exact Or.inr (Or.inr h4)

theorem mem_mid {α : Type} (l₁ l₂ : List α) (a : α) : a ∈ l₁ ++ a :: l₂ :=
  List.mem_append_right l₁ (List.mem_cons_self a l₂)

theorem mem_mid_right {α : Type} {x : α} (l₁ : List α) (a : α) {l₂ : List α}
    (h : x ∈ l₂) : x ∈ l₁ ++ a :: l₂ :=
  List.mem_append_right l₁ (List.mem_cons_of_mem a h)

theorem countP_zero_not {α : Type} {p : α → Bool} {l : List α}
    (h : l.countP p = 0) {x : α} (hx : x ∈ l) : p x = false := by
  have hh := List.countP_eq_zero.mp h x hx
  simpa using hh

theorem wphase_inactive_cases {ph : WPhase} (h : ph.active = false) :
    ph = WPhase.w0 ∨ ph = WPhase.w6 := by
  cases ph <;> first
    | exact Or.inl rfl
    | exact Or.inr rfl
    | exact absurd h (by decide)

theorem rphase_inactive_cases {ph : RPhase} (h : ph.active = false) :
    ph = RPhase.r0 ∨ ph = RPhase.r6 := by
  cases ph <;> first
    | exact Or.inl rfl
    | exact Or.inr rfl
    | exact absurd h (by decide)

theorem writerStorePartial_inactive {st : State} {p : State × WPhase}
    (h : p.2.active = false) : writerStorePartial st p := by
  rcases p with ⟨q, ph⟩
  rcases wphase_inactive_cases h with h0 | h0 <;> subst h0 <;>
    simp [writerStorePartial]

theorem readerAccPartial_inactive {st : State} {p : State × RPhase}
    (h : p.2.active = false) : readerAccPartial st p := by
  rcases p with ⟨q, ph⟩
  rcases rphase_inactive_cases h with h0 | h0 <;> subst h0 <;>
    simp [readerAccPartial]

theorem wActiveCount_eq {st : State} {lk : Lock} {ws : List (State × WPhase)}
    {rs : List (State × RPhase)} :
    wActiveCount ⟨st, lk, ws, rs⟩ = ws.countP (fun p => p.2.active) := rfl

theorem rActiveCount_eq {st : State} {lk : Lock} {ws : List (State × WPhase)}
    {rs : List (State × RPhase)} :
    rActiveCount ⟨st, lk, ws, rs⟩ = rs.countP (fun p => p.2.active) := rfl

theorem wActiveCount_mk_active (ph : WPhase) (hact : ph.active = true)
    {st : State} {lk : Lock} {r : State} {wa wb : List (State × WPhase)}
    {rs : List (State × RPhase)} :
    wActiveCount ⟨st, lk, wa ++ (r, ph) :: wb, rs⟩
      = wa.countP (fun p => p.2.active) + wb.countP (fun p => p.2.active) + 1 := by
  show (wa ++ (r, ph) :: wb).countP (fun p => p.2.active)
      = wa.countP (fun p => p.2.active) + wb.countP (fun p => p.2.active) + 1
  rw [countP_split]
  simp [hact]

theorem wActiveCount_mk_inactive (ph : WPhase) (hact : ph.active = false)
    {st : State} {lk : Lock} {r : State} {wa wb : List (State × WPhase)}
    {rs : List (State × RPhase)} :
    wActiveCount ⟨st, lk, wa ++ (r, ph) :: wb, rs⟩
      = wa.countP (fun p => p.2.active) + wb.countP (fun p => p.2.active) := by
  show (wa ++ (r, ph) :: wb).countP (fun p => p.2.active)
      = wa.countP (fun p => p.2.active) + wb.countP (fun p => p.2.active)
  rw [countP_split]
  simp [hact]

theorem rActiveCount_mk_active (ph : RPhase) (hact : ph.active = true)
    {st : State} {lk : Lock} {acc : State} {ws : List (State × WPhase)}
    {ra rb : List (State × RPhase)} :
    rActiveCount ⟨st, lk, ws, ra ++ (acc, ph) :: rb⟩
      = ra.countP (fun p => p.2.active) + rb.countP (fun p => p.2.active) + 1 := by
  show (ra ++ (acc, ph) :: rb).countP (fun p => p.2.active)
      = ra.countP (fun p => p.2.active) + rb.countP (fun p => p.2.active) + 1
  rw [countP_split]
  simp [hact]

theorem rActiveCount_mk_inactive (ph : RPhase) (hact : ph.active = false)
    {st : State} {lk : Lock} {acc : State} {ws : List (State × WPhase)}
    {ra rb : List (State × RPhase)} :
    rActiveCount ⟨st, lk, ws, ra ++ (acc, ph) :: rb⟩
      = ra.countP (fun p => p.2.active) + rb.countP (fun p => p.2.active) := by
  show (ra ++ (acc, ph) :: rb).countP (fun p => p.2.active)
      = ra.countP (fun p => p.2.active) + rb.countP (fun p => p.2.active)
  rw [countP_split]
  simp [hact]

theorem fromOneSet_replace {wa wb : List (State × WPhase)} {r v : State}
    {ph phn : WPhase} (hne : ph ≠ WPhase.w6)
    (h : fromOneSet (wa ++ (r, ph) :: wb) v) :
    fromOneSet (wa ++ (r, phn) :: wb) v := by
  rcases h with h0 | ⟨p, hp, h6, hv⟩
  · exact Or.inl h0
  · rcases mem_split hp with h1 | h2 | h3
    · exact Or.inr ⟨p, List.mem_append_left _ h1, h6, hv⟩
    · exfalso
      apply hne
      rw [h2] at h6
      exact h6
    · exact Or.inr ⟨p, mem_mid_right _ _ h3, h6, hv⟩

theorem writer_mid_facts {st : State} {lk : Lock} {r : State}
    {wa wb : List (State × WPhase)} {rs : List (State × RPhase)} {ph : WPhase}
    (h : Inv ⟨st, lk, wa ++ (r, ph) :: wb, rs⟩) (hact : ph.active = true) :
    lk = Lock.writerHeld ∧
    wa.countP (fun p => p.2.active) = 0 ∧
    wb.countP (fun p => p.2.active) = 0 ∧
    rs.countP (fun p => p.2.active) = 0 := by
  cases lk with
  | readersHeld n =>
      exfalso
      have hl : wActiveCount ⟨st, Lock.readersHeld n, wa ++ (r, ph) :: wb, rs⟩ = 0 ∧
          rActiveCount ⟨st, Lock.readersHeld n, wa ++ (r, ph) :: wb, rs⟩ = n :=
        h.lock_ok
      have h1 := hl.1
      rw [wActiveCount_mk_active ph hact] at h1
      omega
  | writerHeld =>
      have hl : wActiveCount ⟨st, Lock.writerHeld, wa ++ (r, ph) :: wb, rs⟩ = 1 ∧
          rActiveCount ⟨st, Lock.writerHeld, wa ++ (r, ph) :: wb, rs⟩ = 0 :=
        h.lock_ok
      have h1 := hl.1
      have h2 := hl.2
      rw [wActiveCount_mk_active ph hact] at h1
      rw [rActiveCount_eq] at h2
      exact ⟨rfl, by omega, by omega, h2⟩

theorem reader_mid_facts {st : State} {lk : Lock} {acc : State}
    {ws : List (State × WPhase)} {ra rb : List (State × RPhase)} {ph : RPhase}
    (h : Inv ⟨st, lk, ws, ra ++ (acc, ph) :: rb⟩) (hact : ph.active = true) :
    (∃ m, lk = Lock.readersHeld (m + 1)) ∧
    ws.countP (fun p => p.2.active) = 0 := by
  cases lk with
  | writerHeld =>
      exfalso
      have hl : wActiveCount ⟨st, Lock.writerHeld, ws, ra ++ (acc, ph) :: rb⟩ = 1 ∧
          rActiveCount ⟨st, Lock.writerHeld, ws, ra ++ (acc, ph) :: rb⟩ = 0 :=
        h.lock_ok
      have h2 := hl.2
      rw [rActiveCount_mk_active ph hact] at h2
      omega
  | readersHeld n =>
      have hl : wActiveCount ⟨st, Lock.readersHeld n, ws, ra ++ (acc, ph) :: rb⟩ = 0 ∧
          rActiveCount ⟨st, Lock.readersHeld n, ws, ra ++ (acc, ph) :: rb⟩ = n :=
        h.lock_ok
      have h1 := hl.1
      have h2 := hl.2
      rw [wActiveCount_eq] at h1
      rw [rActiveCount_mk_active ph hact] at h2
      refine ⟨⟨n - 1, ?_⟩, h1⟩
      have he : n - 1 + 1 = n := by omega
      rw [he]

theorem inv_init (args accs : List State) : Inv (initConfig args accs) := by
  refine ⟨?_, ?_, ?_, ?_, ?_⟩
  · simp [initConfig, lockOK, wActiveCount, rActiveCount, List.countP_map,
      Function.comp, WPhase.active, RPhase.active]
  · intro p hp
    simp [initConfig] at hp
    obtain ⟨a, _, rfl⟩ := hp
    exact writerStorePartial_inactive rfl
  · intro _
    exact Or.inl rfl
  · intro p hp
    simp [initConfig] at hp
    obtain ⟨a, _, rfl⟩ := hp
    exact readerAccPartial_inactive rfl
  · intro p hp h6
    simp [initConfig] at hp
    obtain ⟨a, _, rfl⟩ := hp
    simp at h6

theorem inv_step {c cn : Config} (h : Inv c) (hs : Step c cn) : Inv cn := by
  cases hs with
  | wLock st r wa wb rs =>
      have hl : wActiveCount ⟨st, Lock.readersHeld 0, wa ++ (r, WPhase.w0) :: wb, rs⟩ = 0 ∧
          rActiveCount ⟨st, Lock.readersHeld 0, wa ++ (r, WPhase.w0) :: wb, rs⟩ = 0 :=
        h.lock_ok
      have h1 := hl.1
      have h2 := hl.2
      rw [wActiveCount_mk_inactive WPhase.w0 rfl] at h1
      rw [rActiveCount_eq] at h2
      have hwa : wa.countP (fun p => p.2.active) = 0 := by omega
      have hwb : wb.countP (fun p => p.2.active) = 0 := by omega
      refine ⟨⟨?_, ?_⟩, ?_, ?_, ?_, ?_⟩
      · rw [wActiveCount_mk_active WPhase.w1 rfl]
        omega
      · rw [rActiveCount_eq]
        exact h2
      · intro p hp
        rcases mem_split hp with ha | hb | hc
        · exact writerStorePartial_inactive (countP_zero_not hwa ha)
        · subst hb
          simp [writerStorePartial]
        · exact writerStorePartial_inactive (countP_zero_not hwb hc)
      · intro h0
        rw [wActiveCount_mk_active WPhase.w1 rfl] at h0
        omega
      · exact h.reader_partial
      · intro p hp h6
        exact fromOneSet_replace (by decide) (h.readers_done p hp h6)
  | wTemp st lk r wa wb rs =>
      obtain ⟨hlk, hwa, hwb, hrs⟩ := writer_mid_facts h rfl
      subst hlk
      refine ⟨⟨?_, ?_⟩, ?_, ?_, ?_, ?_⟩
      · rw [wActiveCount_mk_active WPhase.w2 rfl]
        omega
      · rw [rActiveCount_eq]
        exact hrs
      · intro p hp
        rcases mem_split hp with ha | hb | hc
        · exact writerStorePartial_inactive (countP_zero_not hwa ha)
        · subst hb
          simp [writerStorePartial]
        · exact writerStorePartial_inactive (countP_zero_not hwb hc)
      · intro h0
        rw [wActiveCount_mk_active WPhase.w2 rfl] at h0
        omega
      · intro p hp
        exact readerAccPartial_inactive (countP_zero_not hrs hp)
      · intro p hp h6
        exact fromOneSet_replace (by decide) (h.readers_done p hp h6)
  | wHum st lk r wa wb rs =>
      obtain ⟨hlk, hwa, hwb, hrs⟩ := writer_mid_facts h rfl
      subst hlk
      have hprev : st.Temperature = r.Temperature :=
        (h.writer_partial (r, WPhase.w2) (mem_mid _ _ _)).1 rfl
      refine ⟨⟨?_, ?_⟩, ?_, ?_, ?_, ?_⟩
      · rw [wActiveCount_mk_active WPhase.w3 rfl]
        omega
      · rw [rActiveCount_eq]
        exact hrs
      · intro p hp
        rcases mem_split hp with ha | hb | hc
        · exact writerStorePartial_inactive (countP_zero_not hwa ha)
        · subst hb
          simp [writerStorePartial, hprev]
        · exact writerStorePartial_inactive (countP_zero_not hwb hc)
      · intro h0
        rw [wActiveCount_mk_active WPhase.w3 rfl] at h0
        omega
      · intro p hp
        exact readerAccPartial_inactive (countP_zero_not hrs hp)
      · intro p hp h6
        exact fromOneSet_replace (by decide) (h.readers_done p hp h6)
  | wIp st lk r wa wb rs =>
      obtain ⟨hlk, hwa, hwb, hrs⟩ := writer_mid_facts h rfl
      subst hlk
      have hpair : st.Temperature = r.Temperature ∧ st.Humidity = r.Humidity :=
        (h.writer_partial (r, WPhase.w3) (mem_mid _ _ _)).2.1 rfl
      obtain ⟨ht, hh⟩ := hpair
      refine ⟨⟨?_, ?_⟩, ?_, ?_, ?_, ?_⟩
      · rw [wActiveCount_mk_active WPhase.w4 rfl]
        omega
      · rw [rActiveCount_eq]
        exact hrs
      · intro p hp
        rcases mem_split hp with ha | hb | hc
        · exact writerStorePartial_inactive (countP_zero_not hwa ha)
        · subst hb
          simp [writerStorePartial, ht, hh]
        · exact writerStorePartial_inactive (countP_zero_not hwb hc)
      · intro h0
        rw [wActiveCount_mk_active WPhase.w4 rfl] at h0
        omega
      · intro p hp
        exact readerAccPartial_inactive (countP_zero_not hrs hp)
      · intro p hp h6
        exact fromOneSet_replace (by decide) (h.readers_done p hp h6)
  | wTime st lk r wa wb rs =>
      obtain ⟨hlk, hwa, hwb, hrs⟩ := writer_mid_facts h rfl
      subst hlk
      have htriple : st.Temperature = r.Temperature ∧
          st.Humidity = r.Humidity ∧ st.IP = r.IP :=
        (h.writer_partial (r, WPhase.w4) (mem_mid _ _ _)).2.2.1 rfl
      obtain ⟨ht, hh, hi⟩ := htriple
      refine ⟨⟨?_, ?_⟩, ?_, ?_, ?_, ?_⟩
      · rw [wActiveCount_mk_active WPhase.w5 rfl]
        omega
      · rw [rActiveCount_eq]
        exact hrs
      · intro p hp
        rcases mem_split hp with ha | hb | hc
        · exact writerStorePartial_inactive (countP_zero_not hwa ha)
        · subst hb
          simp [writerStorePartial, State.ext_iff, ht, hh, hi]
        · exact writerStorePartial_inactive (countP_zero_not hwb hc)
      · intro h0
        rw [wActiveCount_mk_active WPhase.w5 rfl] at h0
        omega
      · intro p hp
        exact readerAccPartial_inactive (countP_zero_not hrs hp)
      · intro p hp h6
        exact fromOneSet_replace (by decide) (h.readers_done p hp h6)
  | wUnlock st lk r wa wb rs =>
      obtain ⟨hlk, hwa, hwb, hrs⟩ := writer_mid_facts h rfl
      subst hlk
      have hstore : st = r :=
        (h.writer_partial (r, WPhase.w5) (mem_mid _ _ _)).2.2.2 rfl
      refine ⟨⟨?_, ?_⟩, ?_, ?_, ?_, ?_⟩
      · rw [wActiveCount_mk_inactive WPhase.w6 rfl]
        omega
      · rw [rActiveCount_eq]
        exact hrs
      · intro p hp
        rcases mem_split hp with ha | hb | hc
        · exact writerStorePartial_inactive (countP_zero_not hwa ha)
        · subst hb
          exact writerStorePartial_inactive rfl
        · exact writerStorePartial_inactive (countP_zero_not hwb hc)
      · intro _
        exact Or.inr ⟨(r, WPhase.w6), mem_mid _ _ _, rfl, hstore⟩
      · intro p hp
        exact readerAccPartial_inactive (countP_zero_not hrs hp)
      · intro p hp h6
        exact fromOneSet_replace (by decide) (h.readers_done p hp h6)
  | rLock st n acc ws ra rb =>
      have hl : wActiveCount ⟨st, Lock.readersHeld n, ws, ra ++ (acc, RPhase.r0) :: rb⟩ = 0 ∧
          rActiveCount ⟨st, Lock.readersHeld n, ws, ra ++ (acc, RPhase.r0) :: rb⟩ = n :=
        h.lock_ok
      have h1 := hl.1
      have h2 := hl.2
      rw [wActiveCount_eq] at h1
      rw [rActiveCount_mk_inactive RPhase.r0 rfl] at h2
      refine ⟨⟨?_, ?_⟩, ?_, ?_, ?_, ?_⟩
      · rw [wActiveCount_eq]
        exact h1
      · rw [rActiveCount_mk_active RPhase.r1 rfl]
        omega
      · exact h.writer_partial
      · exact h.store_committed
      · intro p hp
        rcases mem_split hp with ha | hb | hc
        · exact h.reader_partial p (List.mem_append_left _ ha)
        · subst hb
          simp [readerAccPartial]
        · exact h.reader_partial p (mem_mid_right _ _ hc)
      · intro p hp h6
        rcases mem_split hp with ha | hb | hc
        · exact h.readers_done p (List.mem_append_left _ ha) h6
        · subst hb
          simp at h6
        · exact h.readers_done p (mem_mid_right _ _ hc) h6
  | rTemp st lk acc ws ra rb =>
      obtain ⟨⟨m, hlk⟩, hws⟩ := reader_mid_facts h rfl
      subst hlk
      have hl : wActiveCount ⟨st, Lock.readersHeld (m + 1), ws,
            ra ++ (acc, RPhase.r1) :: rb⟩ = 0 ∧
          rActiveCount ⟨st, Lock.readersHeld (m + 1), ws,
            ra ++ (acc, RPhase.r1) :: rb⟩ = m + 1 :=
        h.lock_ok
      have h2 := hl.2
      rw [rActiveCount_mk_active RPhase.r1 rfl] at h2
      refine ⟨⟨?_, ?_⟩, ?_, ?_, ?_, ?_⟩
      · rw [wActiveCount_eq]
        exact hws
      · rw [rActiveCount_mk_active RPhase.r2 rfl]
        omega
      · exact h.writer_partial
      · exact h.store_committed
      · intro p hp
        rcases mem_split hp with ha | hb | hc
        · exact h.reader_partial p (List.mem_append_left _ ha)
        · subst hb
          simp [readerAccPartial]
        · exact h.reader_partial p (mem_mid_right _ _ hc)
      · intro p hp h6
        rcases mem_split hp with ha | hb | hc
        · exact h.readers_done p (List.mem_append_left _ ha) h6
        · subst hb
          simp at h6
        · exact h.readers_done p (mem_mid_right _ _ hc) h6
  | rHum st lk acc ws ra rb =>
      obtain ⟨⟨m, hlk⟩, hws⟩ := reader_mid_facts h rfl
      subst hlk
      have hl : wActiveCount ⟨st, Lock.readersHeld (m + 1), ws,
            ra ++ (acc, RPhase.r2) :: rb⟩ = 0 ∧
          rActiveCount ⟨st, Lock.readersHeld (m + 1), ws,
            ra ++ (acc, RPhase.r2) :: rb⟩ = m + 1 :=
        h.lock_ok
      have h2 := hl.2
      rw [rActiveCount_mk_active RPhase.r2 rfl] at h2
      have hprev : acc.Temperature = st.Temperature :=
        (h.reader_partial (acc, RPhase.r2) (mem_mid _ _ _)).1 rfl
      refine ⟨⟨?_, ?_⟩, ?_, ?_, ?_, ?_⟩
      · rw [wActiveCount_eq]
        exact hws
      · rw [rActiveCount_mk_active RPhase.r3 rfl]
        omega
      · exact h.writer_partial
      · exact h.store_committed
      · intro p hp
        rcases mem_split hp with ha | hb | hc
        · exact h.reader_partial p (List.mem_append_left _ ha)
        · subst hb
          simp [readerAccPartial, hprev]
        · exact h.reader_partial p (mem_mid_right _ _ hc)
      · intro p hp h6
        rcases mem_split hp with ha | hb | hc
        · exact h.readers_done p (List.mem_append_left _ ha) h6
        · subst hb
          simp at h6
        · exact h.readers_done p (mem_mid_right _ _ hc) h6
  | rIp st lk acc ws ra rb =>
      obtain ⟨⟨m, hlk⟩, hws⟩ := reader_mid_facts h rfl
      subst hlk
      have hl : wActiveCount ⟨st, Lock.readersHeld (m + 1), ws,
            ra ++ (acc, RPhase.r3) :: rb⟩ = 0 ∧
          rActiveCount ⟨st, Lock.readersHeld (m + 1), ws,
            ra ++ (acc, RPhase.r3) :: rb⟩ = m + 1 :=
        h.lock_ok
      have h2 := hl.2
      rw [rActiveCount_mk_active RPhase.r3 rfl] at h2
      have hpair : acc.Temperature = st.Temperature ∧ acc.Humidity = st.Humidity :=
        (h.reader_partial (acc, RPhase.r3) (mem_mid _ _ _)).2.1 rfl
      obtain ⟨ht, hh⟩ := hpair
      refine ⟨⟨?_, ?_⟩, ?_, ?_, ?_, ?_⟩
      · rw [wActiveCount_eq]
        exact hws
      · rw [rActiveCount_mk_active RPhase.r4 rfl]
        omega
      · exact h.writer_partial
      · exact h.store_committed
      · intro p hp
        rcases mem_split hp with ha | hb | hc
        · exact h.reader_partial p (List.mem_append_left _ ha)
        · subst hb
          simp [readerAccPartial, ht, hh]
        · exact h.reader_partial p (mem_mid_right _ _ hc)
      · intro p hp h6
        rcases mem_split hp with ha | hb | hc
        · exact h.readers_done p (List.mem_append_left _ ha) h6
        · subst hb
          simp at h6
        · exact h.readers_done p (mem_mid_right _ _ hc) h6
  | rTime st lk acc ws ra rb =>
      obtain ⟨⟨m, hlk⟩, hws⟩ := reader_mid_facts h rfl
      subst hlk
      have hl : wActiveCount ⟨st, Lock.readersHeld (m + 1), ws,
            ra ++ (acc, RPhase.r4) :: rb⟩ = 0 ∧
          rActiveCount ⟨st, Lock.readersHeld (m + 1), ws,
            ra ++ (acc, RPhase.r4) :: rb⟩ = m + 1 :=
        h.lock_ok
      have h2 := hl.2
      rw [rActiveCount_mk_active RPhase.r4 rfl] at h2
      have htriple : acc.Temperature = st.Temperature ∧
          acc.Humidity = st.Humidity ∧ acc.IP = st.IP :=
        (h.reader_partial (acc, RPhase.r4) (mem_mid _ _ _)).2.2.1 rfl
      obtain ⟨ht, hh, hi⟩ := htriple
      refine ⟨⟨?_, ?_⟩, ?_, ?_, ?_, ?_⟩
      · rw [wActiveCount_eq]
        exact hws
      · rw [rActiveCount_mk_active RPhase.r5 rfl]
        omega
      · exact h.writer_partial
      · exact h.store_committed
      · intro p hp
        rcases mem_split hp with ha | hb | hc
        · exact h.reader_partial p (List.mem_append_left _ ha)
        · subst hb
          simp [readerAccPartial, State.ext_iff, ht, hh, hi]
        · exact h.reader_partial p (mem_mid_right _ _ hc)
      · intro p hp h6
        rcases mem_split hp with ha | hb | hc
        · exact h.readers_done p (List.mem_append_left _ ha) h6
        · subst hb
          simp at h6
        · exact h.readers_done p (mem_mid_right _ _ hc) h6
  | rUnlock st n acc ws ra rb =>
      have hl : wActiveCount ⟨st, Lock.readersHeld (n + 1), ws,
            ra ++ (acc, RPhase.r5) :: rb⟩ = 0 ∧
          rActiveCount ⟨st, Lock.readersHeld (n + 1), ws,
            ra ++ (acc, RPhase.r5) :: rb⟩ = n + 1 :=
        h.lock_ok
      have h1 := hl.1
      have h2 := hl.2
      rw [wActiveCount_eq] at h1
      rw [rActiveCount_mk_active RPhase.r5 rfl] at h2
      have hacc : acc = st :=
        (h.reader_partial (acc, RPhase.r5) (mem_mid _ _ _)).2.2.2 rfl
      have hcommit : fromOneSet ws st := h.store_committed (by
        rw [wActiveCount_eq]
        exact h1)
      refine ⟨⟨?_, ?_⟩, ?_, ?_, ?_, ?_⟩
      · rw [wActiveCount_eq]
        exact h1
      · rw [rActiveCount_mk_inactive RPhase.r6 rfl]
        omega
      · exact h.writer_partial
      · exact h.store_committed
      · intro p hp
        rcases mem_split hp with ha | hb | hc
        · exact h.reader_partial p (List.mem_append_left _ ha)
        · subst hb
          simp [readerAccPartial]
        · exact h.reader_partial p (mem_mid_right _ _ hc)
      · intro p hp h6
        rcases mem_split hp with ha | hb | hc
        · exact h.readers_done p (List.mem_append_left _ ha) h6
        · subst hb
          have hres : fromOneSet ws acc := by
            rw [hacc]
            exact hcommit
          exact hres
        · exact h.readers_done p (mem_mid_right _ _ hc) h6

/-- Claim C1: in every interleaving of concurrent Set and Get calls on the
store - starting from the zero-valued store with any collection of pending
Set(args) and Get calls, taking any number of fine-grained steps - every
Get call that has returned holds either the zero-value Reading or the
complete four-field argument of one single Set call, never a mixture of
fields from two different Set calls. -/
theorem get_returns_single_set (args accs : List State) (c : Config)
    (hreach : Reachable (initConfig args accs) c) (acc : State)
    (hmem : (acc, RPhase.r6) ∈ c.readers) : fromOneSet c.writers acc := by
  have hinv : ∀ d, Reachable (initConfig args accs) d → Inv d := by
    intro d hd
    induction hd with
    | refl => exact inv_init args accs
    | tail hab hbc ih => exact inv_step ih hbc
  exact (hinv c hreach).readers_done _ hmem rfl

theorem reach_cFinal : Reachable (initConfig [rStar] [State.zero]) cFinal := by
  have s1 : Step (initConfig [rStar] [State.zero])
      ⟨State.zero, Lock.writerHeld, [(rStar, WPhase.w1)],
        [(State.zero, RPhase.r0)]⟩ :=
    Step.wLock State.zero rStar [] [] [(State.zero, RPhase.r0)]
  have s2 : Step
      ⟨State.zero, Lock.writerHeld, [(rStar, WPhase.w1)],
        [(State.zero, RPhase.r0)]⟩
      ⟨⟨1, 0, "", 0⟩, Lock.writerHeld, [(rStar, WPhase.w2)],
        [(State.zero, RPhase.r0)]⟩ :=
    Step.wTemp State.zero Lock.writerHeld rStar [] [] [(State.zero, RPhase.r0)]
  have s3 : Step
      ⟨⟨1, 0, "", 0⟩, Lock.writerHeld, [(rStar, WPhase.w2)],
        [(State.zero, RPhase.r0)]⟩
      ⟨⟨1, 2, "", 0⟩, Lock.writerHeld, [(rStar, WPhase.w3)],
        [(State.zero, RPhase.r0)]⟩ :=
    Step.wHum ⟨1, 0, "", 0⟩ Lock.writerHeld rStar [] [] [(State.zero, RPhase.r0)]
  have s4 : Step
      ⟨⟨1, 2, "", 0⟩, Lock.writerHeld, [(rStar, WPhase.w3)],
        [(State.zero, RPhase.r0)]⟩
      ⟨⟨1, 2, "x", 0⟩, Lock.writerHeld, [(rStar, WPhase.w4)],
        [(State.zero, RPhase.r0)]⟩ :=
    Step.wIp ⟨1, 2, "", 0⟩ Lock.writerHeld rStar [] [] [(State.zero, RPhase.r0)]
  have s5 : Step
      ⟨⟨1, 2, "x", 0⟩, Lock.writerHeld, [(rStar, WPhase.w4)],
        [(State.zero, RPhase.r0)]⟩
      ⟨rStar, Lock.writerHeld, [(rStar, WPhase.w5)],
        [(State.zero, RPhase.r0)]⟩ :=
    Step.wTime ⟨1, 2, "x", 0⟩ Lock.writerHeld rStar [] [] [(State.zero, RPhase.r0)]
  have s6 : Step
      ⟨rStar, Lock.writerHeld, [(rStar, WPhase.w5)], [(State.zero, RPhase.r0)]⟩
      ⟨rStar, Lock.readersHeld 0, [(rStar, WPhase.w6)],
        [(State.zero, RPhase.r0)]⟩ :=
    Step.wUnlock rStar Lock.writerHeld rStar [] [] [(State.zero, RPhase.r0)]
  have s7 : Step
      ⟨rStar, Lock.readersHeld 0, [(rStar, WPhase.w6)],
        [(State.zero, RPhase.r0)]⟩
      ⟨rStar, Lock.readersHeld 1, [(rStar, WPhase.w6)],
        [(State.zero, RPhase.r1)]⟩ :=
    Step.rLock rStar 0 State.zero [(rStar, WPhase.w6)] [] []
  have s8 : Step
      ⟨rStar, Lock.readersHeld 1, [(rStar, WPhase.w6)],
        [(State.zero, RPhase.r1)]⟩
      ⟨rStar, Lock.readersHeld 1, [(rStar, WPhase.w6)],
        [(⟨1, 0, "", 0⟩, RPhase.r2)]⟩ :=
    Step.rTemp rStar (Lock.readersHeld 1) State.zero [(rStar, WPhase.w6)] [] []
  have s9 : Step
      ⟨rStar, Lock.readersHeld 1, [(rStar, WPhase.w6)],
        [(⟨1, 0, "", 0⟩, RPhase.r2)]⟩
      ⟨rStar, Lock.readersHeld 1, [(rStar, WPhase.w6)],
        [(⟨1, 2, "", 0⟩, RPhase.r3)]⟩ :=
    Step.rHum rStar (Lock.readersHeld 1) ⟨1, 0, "", 0⟩ [(rStar, WPhase.w6)] [] []
  have s10 : Step
      ⟨rStar, Lock.readersHeld 1, [(rStar, WPhase.w6)],
        [(⟨1, 2, "", 0⟩, RPhase.r3)]⟩
      ⟨rStar, Lock.readersHeld 1, [(rStar, WPhase.w6)],
        [(⟨1, 2, "x", 0⟩, RPhase.r4)]⟩ :=
    Step.rIp rStar (Lock.readersHeld 1) ⟨1, 2, "", 0⟩ [(rStar, WPhase.w6)] [] []
  have s11 : Step
      ⟨rStar, Lock.readersHeld 1, [(rStar, WPhase.w6)],
        [(⟨1, 2, "x", 0⟩, RPhase.r4)]⟩
      ⟨rStar, Lock.readersHeld 1, [(rStar, WPhase.w6)],
        [(rStar, RPhase.r5)]⟩ :=
    Step.rTime rStar (Lock.readersHeld 1) ⟨1, 2, "x", 0⟩ [(rStar, WPhase.w6)] [] []
  have s12 : Step
      ⟨rStar, Lock.readersHeld 1, [(rStar, WPhase.w6)], [(rStar, RPhase.r5)]⟩
      cFinal :=
    Step.rUnlock rStar 0 rStar [(rStar, WPhase.w6)] [] []
  exact Relation.ReflTransGen.head s1 (Relation.ReflTransGen.head s2
    (Relation.ReflTransGen.head s3 (Relation.ReflTransGen.head s4
    (Relation.ReflTransGen.head s5 (Relation.ReflTransGen.head s6
    (Relation.ReflTransGen.head s7 (Relation.ReflTransGen.head s8
    (Relation.ReflTransGen.head s9 (Relation.ReflTransGen.head s10
    (Relation.ReflTransGen.head s11 (Relation.ReflTransGen.head s12
      Relation.ReflTransGen.refl)))))))))))

/-- Claim C1 witness: a concrete interleaving - one full Set(rStar)
followed by one full Get from the zero store - reaches cFinal, whose
returned Get holds a value from one single Set. -/
theorem get_returns_single_set_witness : fromOneSet cFinal.writers rStar :=
  get_returns_single_set [rStar] [State.zero] cFinal reach_cFinal rStar
    (by simp [cFinal])

end Pitemp
